import Mathlib

/-!
Verification of the palette reference-resolution engine and color helpers
of the veneer-theme repository (src/palette.rs, src/render.rs, src/show.rs).

The Rust code is shallowly embedded:
* Rust `String` map keys and dotted paths are Lean `String`s; `BTreeMap`
  iteration becomes association lists in iteration order.
* The recursive `resolve_path` carries an explicit fuel parameter; `none`
  models non-termination and is proven unreachable for fuel equal to the
  number of palette slots plus one.
* `anyhow` error values are modelled by their rendered message strings
  (`{:#}` alternate format, which joins contexts with ": ").
* `hex_to_rgb` (identical in render.rs and show.rs) works on UTF-8 bytes,
  because the Rust code slices the string by byte index; a slice at a
  non-char-boundary index panics, modelled as `Except.error`.
* `f32` alpha values are modelled by exact rationals; `f32::round` is
  round-half-away-from-zero.
-/

deriving instance DecidableEq for Except

namespace Veneer

/-- One color value of the raw palette: a literal hex string (input began
with a number sign) or a dotted reference path (src/palette.rs `ColorRef`). -/
inductive ColorRef : Type where
  | Hex : String → ColorRef
  | Path : String → ColorRef
deriving DecidableEq

/-- src/palette.rs `Meta`: opaque pass-through metadata. -/
structure Meta : Type where
  name : String
  version : Option String
  slug : Option String
deriving DecidableEq

/-- src/palette.rs `Colors`: the `light` and `dark` key-to-ColorRef maps. -/
structure Colors : Type where
  light : List (String × ColorRef)
  dark : List (String × ColorRef)
deriving DecidableEq

/-- src/palette.rs `AnsiRow`: the eight fixed terminal color slots. -/
structure AnsiRow : Type where
  black : ColorRef
  red : ColorRef
  green : ColorRef
  yellow : ColorRef
  blue : ColorRef
  magenta : ColorRef
  cyan : ColorRef
  white : ColorRef
deriving DecidableEq

/-- src/palette.rs `AnsiScheme`. -/
structure AnsiScheme : Type where
  normal : AnsiRow
  bright : AnsiRow
deriving DecidableEq

/-- src/palette.rs `Ansi`. -/
structure Ansi : Type where
  light : AnsiScheme
  dark : AnsiScheme
deriving DecidableEq

/-- src/palette.rs `Palette`: the raw, possibly self-referential palette. -/
structure Palette : Type where
  meta : Meta
  colors : Colors
  accents : List (String × ColorRef)
  ansi : Ansi
deriving DecidableEq

/-- src/palette.rs `ResolvedAnsiRow`. -/
structure ResolvedAnsiRow : Type where
  black : String
  red : String
  green : String
  yellow : String
  blue : String
  magenta : String
  cyan : String
  white : String
deriving DecidableEq

/-- src/palette.rs `ResolvedAnsiScheme`. -/
structure ResolvedAnsiScheme : Type where
  normal : ResolvedAnsiRow
  bright : ResolvedAnsiRow
deriving DecidableEq

/-- src/palette.rs `ResolvedAnsi`. -/
structure ResolvedAnsi : Type where
  light : ResolvedAnsiScheme
  dark : ResolvedAnsiScheme
deriving DecidableEq

/-- src/palette.rs `ResolvedColors`. -/
structure ResolvedColors : Type where
  light : List (String × String)
  dark : List (String × String)
deriving DecidableEq

/-- src/palette.rs `ResolvedPalette`: every ColorRef replaced by a string. -/
structure ResolvedPalette : Type where
  meta : Meta
  colors : ResolvedColors
  accents : List (String × String)
  ansi : ResolvedAnsi
deriving DecidableEq

/-- Association-list lookup, modelling `BTreeMap::get`. -/
def alookup {α : Type} : List (String × α) → String → Option α
  | [], _ => none
  | (k, v) :: rest, key => if key = k then some v else alookup rest key

/-- The memo table of one resolution run (`HashMap<String, String>`). -/
abbrev Memo := List (String × String)

/-- Rust `char::is_ascii_hexdigit`-style class of the regex `[0-9A-Fa-f]`. -/
def isHexDigitChar (c : Char) : Bool :=
  (48 ≤ c.toNat && c.toNat ≤ 57) || (97 ≤ c.toNat && c.toNat ≤ 102) ||
    (65 ≤ c.toNat && c.toNat ≤ 70)

/-- The regex `^#[0-9A-Fa-f]{6}$` of normalize_hex and validate_palette. -/
def hexPattern (l : List Char) : Bool :=
  match l with
  | '#' :: rest => rest.length == 6 && rest.all isHexDigitChar
  | _ => false

/-- Rust `str::to_uppercase`, which on the ASCII strings reaching it is
character-wise uppercasing. -/
def upperStr (s : String) : String :=
  String.mk (s.data.map Char.toUpper)

/-- src/palette.rs `normalize_hex`: match the hex regex, then uppercase. -/
def normalize_hex (raw : String) : Except String String :=
  if hexPattern raw.data then Except.ok (upperStr raw)
  else Except.error ("invalid hex color: " ++ raw)

/-- Rust `str::split('.')` on the character list of a path. -/
def splitDot : List Char → List (List Char)
  | [] => [[]]
  | c :: cs =>
    match splitDot cs with
    | [] => [[]]
    | h :: t => if c = '.' then [] :: h :: t else (c :: h) :: t

/-- The dotted-path components of a string, as produced by `split('.')`. -/
def pathParts (path : String) : List String :=
  (splitDot path.data).map (fun l => String.mk l)

/-- src/palette.rs `lookup_color_ref`: parse the path into one of the three
address shapes and dispatch into the matching sub-structure. -/
def lookup_color_ref (p : Palette) (path : String) : Option ColorRef :=
  match pathParts path with
  | ["colors", tone, key] =>
    match tone with
    | "light" => alookup p.colors.light key
    | "dark" => alookup p.colors.dark key
    | _ => none
  | ["accents", key] => alookup p.accents key
  | ["ansi", tone, level, color] =>
    match (match tone with
           | "light" => some p.ansi.light
           | "dark" => some p.ansi.dark
           | _ => none) with
    | none => none
    | some scheme =>
      match (match level with
             | "normal" => some scheme.normal
             | "bright" => some scheme.bright
             | _ => none) with
      | none => none
      | some row =>
        match color with
        | "black" => some row.black
        | "red" => some row.red
        | "green" => some row.green
        | "yellow" => some row.yellow
        | "blue" => some row.blue
        | "magenta" => some row.magenta
        | "cyan" => some row.cyan
        | "white" => some row.white
        | _ => none
  | _ => none

/-- Rust `Vec::join(" -> ")` used for the cycle message. -/
def joinArrow : List String → String
  | [] => ""
  | [s] => s
  | s :: rest => s ++ " -> " ++ joinArrow rest

/-- src/palette.rs `resolve_path`: memoized depth-first resolution of one
dotted path.  The extra fuel argument makes the recursion structural;
`none` (fuel ran out) is proven unreachable for fuel `path_bound`. -/
def resolve_path (p : Palette) :
    Nat → String → Memo → List String → Option (Except String (String × Memo))
  | 0, _, _, _ => none
  | fuel + 1, path, memo, stack =>
    match alookup memo path with
    | some v => some (Except.ok (v, memo))
    | none =>
      if path ∈ stack then
        some (Except.error ("cycle detected: " ++ joinArrow stack ++ " -> " ++ path))
      else
        match lookup_color_ref p path with
        | none =>
          some (Except.error
            ("missing path '" ++ path ++ "'; expected colors.*, accents.*, or ansi.*.*.*"))
        | some (ColorRef.Hex raw) =>
          match normalize_hex raw with
          | Except.error e => some (Except.error e)
          | Except.ok v => some (Except.ok (v, (path, v) :: memo))
        | some (ColorRef.Path next) =>
          match resolve_path p fuel next memo (stack ++ [path]) with
          | none => none
          | some (Except.error e) => some (Except.error e)
          | some (Except.ok (v, memo2)) => some (Except.ok (v, (path, v) :: memo2))

/-- Error-propagating bind over the resolution result type. -/
def obind {α β : Type} (x : Option (Except String α))
    (f : α → Option (Except String β)) : Option (Except String β) :=
  match x with
  | none => none
  | some (Except.error e) => some (Except.error e)
  | some (Except.ok a) => f a

/-- The `resolve_color` closure of src/palette.rs `resolve_palette`:
normalize a literal, or resolve a reference wrapping its error with the
originating slot's label. -/
def resolve_color (p : Palette) (fuel : Nat) (label : String) (cref : ColorRef)
    (memo : Memo) : Option (Except String (String × Memo)) :=
  match cref with
  | ColorRef.Hex raw =>
    match normalize_hex raw with
    | Except.error e => some (Except.error e)
    | Except.ok v => some (Except.ok (v, memo))
  | ColorRef.Path path =>
    match resolve_path p fuel path memo [] with
    | none => none
    | some (Except.error e) =>
      some (Except.error ("resolving " ++ label ++ " -> " ++ path ++ ": " ++ e))
    | some (Except.ok (v, memo2)) => some (Except.ok (v, memo2))

/-- One `for (k, v) in map` loop of `resolve_palette`, threading the memo. -/
def resolve_list (p : Palette) (fuel : Nat) (base : String) :
    List (String × ColorRef) → Memo →
      Option (Except String (List (String × String) × Memo))
  | [], memo => some (Except.ok ([], memo))
  | (k, cref) :: rest, memo =>
    obind (resolve_color p fuel (base ++ k) cref memo) (fun vm =>
      obind (resolve_list p fuel base rest vm.2) (fun pm =>
        some (Except.ok ((k, vm.1) :: pm.1, pm.2))))

/-- The `resolve_row` closure of `resolve_palette`: the eight fixed slots. -/
def resolve_row (p : Palette) (fuel : Nat) (base : String) (row : AnsiRow)
    (memo : Memo) : Option (Except String (ResolvedAnsiRow × Memo)) :=
  obind (resolve_color p fuel (base ++ ".black") row.black memo) (fun b =>
  obind (resolve_color p fuel (base ++ ".red") row.red b.2) (fun r =>
  obind (resolve_color p fuel (base ++ ".green") row.green r.2) (fun g =>
  obind (resolve_color p fuel (base ++ ".yellow") row.yellow g.2) (fun y =>
  obind (resolve_color p fuel (base ++ ".blue") row.blue y.2) (fun bl =>
  obind (resolve_color p fuel (base ++ ".magenta") row.magenta bl.2) (fun m =>
  obind (resolve_color p fuel (base ++ ".cyan") row.cyan m.2) (fun c =>
  obind (resolve_color p fuel (base ++ ".white") row.white c.2) (fun w =>
  some (Except.ok
    ({ black := b.1, red := r.1, green := g.1, yellow := y.1,
       blue := bl.1, magenta := m.1, cyan := c.1, white := w.1 }, w.2))))))))))

/-- One row of ansi slots with their canonical labels (used by the
validator's `check_row` and by the slot enumeration). -/
def ansi_row_slots (base : String) (row : AnsiRow) : List (String × ColorRef) :=
  [(base ++ ".black", row.black), (base ++ ".red", row.red),
   (base ++ ".green", row.green), (base ++ ".yellow", row.yellow),
   (base ++ ".blue", row.blue), (base ++ ".magenta", row.magenta),
   (base ++ ".cyan", row.cyan), (base ++ ".white", row.white)]

/-- Every color slot of the palette with its canonical label, in the fixed
enumeration order used by both validate_palette and resolve_palette. -/
def labeled_slots (p : Palette) : List (String × ColorRef) :=
  p.colors.light.map (fun kv => ("colors.light." ++ kv.1, kv.2))
    ++ p.colors.dark.map (fun kv => ("colors.dark." ++ kv.1, kv.2))
    ++ p.accents.map (fun kv => ("accents." ++ kv.1, kv.2))
    ++ ansi_row_slots "ansi.light.normal" p.ansi.light.normal
    ++ ansi_row_slots "ansi.light.bright" p.ansi.light.bright
    ++ ansi_row_slots "ansi.dark.normal" p.ansi.dark.normal
    ++ ansi_row_slots "ansi.dark.bright" p.ansi.dark.bright

/-- Fuel that is always sufficient: one more than the number of slots. -/
def path_bound (p : Palette) : Nat := (labeled_slots p).length + 1

/-- src/palette.rs `resolve_palette`: resolve every slot in the fixed
enumeration order, sharing one memo table across the whole run. -/
def resolve_palette (p : Palette) : Option (Except String ResolvedPalette) :=
  obind (resolve_list p (path_bound p) "colors.light." p.colors.light []) (fun lightm =>
  obind (resolve_list p (path_bound p) "colors.dark." p.colors.dark lightm.2) (fun darkm =>
  obind (resolve_list p (path_bound p) "accents." p.accents darkm.2) (fun accm =>
  obind (resolve_row p (path_bound p) "ansi.light.normal" p.ansi.light.normal accm.2) (fun alnm =>
  obind (resolve_row p (path_bound p) "ansi.light.bright" p.ansi.light.bright alnm.2) (fun albm =>
  obind (resolve_row p (path_bound p) "ansi.dark.normal" p.ansi.dark.normal albm.2) (fun adnm =>
  obind (resolve_row p (path_bound p) "ansi.dark.bright" p.ansi.dark.bright adnm.2) (fun adbm =>
  some (Except.ok
    { meta := p.meta,
      colors := { light := lightm.1, dark := darkm.1 },
      accents := accm.1,
      ansi := { light := { normal := alnm.1, bright := albm.1 },
                dark := { normal := adnm.1, bright := adbm.1 } } }))))))))

/-- src/palette.rs `check_ref` closure of `validate_palette`: a literal must
match the hex regex, a reference path must contain a dot. -/
def check_ref (label : String) (cref : ColorRef) : Except String Unit :=
  match cref with
  | ColorRef.Hex s =>
    if hexPattern s.data then Except.ok ()
    else Except.error (label ++ " has invalid hex color: " ++ s)
  | ColorRef.Path q =>
    if q.data.contains '.' then Except.ok ()
    else Except.error (label ++ " path must contain at least one '.' segment: " ++ q)

/-- The slot-by-slot sweep of `validate_palette`, stopping at the first
failing slot. -/
def check_slots : List (String × ColorRef) → Except String Unit
  | [] => Except.ok ()
  | (label, cref) :: rest =>
    match check_ref label cref with
    | Except.error e => Except.error e
    | Except.ok _ => check_slots rest

/-- src/palette.rs `validate_palette`: check every slot of colors.light,
colors.dark, accents and the four ansi rows, in the fixed order. -/
def validate_palette (p : Palette) : Except String Unit :=
  check_slots (labeled_slots p)

/-- Reference implementation for the memoization claim: `resolve_path`
stripped of the memo table.  Follows the spec's words "resolving each path
naively without the memo table". -/
def resolve_path_nm (p : Palette) :
    Nat → String → List String → Option (Except String String)
  | 0, _, _ => none
  | fuel + 1, path, stack =>
    if path ∈ stack then
      some (Except.error ("cycle detected: " ++ joinArrow stack ++ " -> " ++ path))
    else
      match lookup_color_ref p path with
      | none =>
        some (Except.error
          ("missing path '" ++ path ++ "'; expected colors.*, accents.*, or ansi.*.*.*"))
      | some (ColorRef.Hex raw) =>
        match normalize_hex raw with
        | Except.error e => some (Except.error e)
        | Except.ok v => some (Except.ok v)
      | some (ColorRef.Path next) =>
        match resolve_path_nm p fuel next (stack ++ [path]) with
        | none => none
        | some (Except.error e) => some (Except.error e)
        | some (Except.ok v) => some (Except.ok v)

/-- `resolve_color` without the memo table. -/
def resolve_color_nm (p : Palette) (fuel : Nat) (label : String)
    (cref : ColorRef) : Option (Except String String) :=
  match cref with
  | ColorRef.Hex raw =>
    match normalize_hex raw with
    | Except.error e => some (Except.error e)
    | Except.ok v => some (Except.ok v)
  | ColorRef.Path path =>
    match resolve_path_nm p fuel path [] with
    | none => none
    | some (Except.error e) =>
      some (Except.error ("resolving " ++ label ++ " -> " ++ path ++ ": " ++ e))
    | some (Except.ok v) => some (Except.ok v)

/-- One map loop of the memo-free resolver. -/
def resolve_list_nm (p : Palette) (fuel : Nat) (base : String) :
    List (String × ColorRef) → Option (Except String (List (String × String)))
  | [] => some (Except.ok [])
  | (k, cref) :: rest =>
    obind (resolve_color_nm p fuel (base ++ k) cref) (fun v =>
      obind (resolve_list_nm p fuel base rest) (fun pairs =>
        some (Except.ok ((k, v) :: pairs))))

/-- One ansi row of the memo-free resolver. -/
def resolve_row_nm (p : Palette) (fuel : Nat) (base : String) (row : AnsiRow) :
    Option (Except String ResolvedAnsiRow) :=
  obind (resolve_color_nm p fuel (base ++ ".black") row.black) (fun b =>
  obind (resolve_color_nm p fuel (base ++ ".red") row.red) (fun r =>
  obind (resolve_color_nm p fuel (base ++ ".green") row.green) (fun g =>
  obind (resolve_color_nm p fuel (base ++ ".yellow") row.yellow) (fun y =>
  obind (resolve_color_nm p fuel (base ++ ".blue") row.blue) (fun bl =>
  obind (resolve_color_nm p fuel (base ++ ".magenta") row.magenta) (fun m =>
  obind (resolve_color_nm p fuel (base ++ ".cyan") row.cyan) (fun c =>
  obind (resolve_color_nm p fuel (base ++ ".white") row.white) (fun w =>
  some (Except.ok
    { black := b, red := r, green := g, yellow := y,
      blue := bl, magenta := m, cyan := c, white := w })))))))))

/-- The memo-free resolver: every slot resolved independently from scratch. -/
def resolve_palette_nm (p : Palette) : Option (Except String ResolvedPalette) :=
  obind (resolve_list_nm p (path_bound p) "colors.light." p.colors.light) (fun light =>
  obind (resolve_list_nm p (path_bound p) "colors.dark." p.colors.dark) (fun dark =>
  obind (resolve_list_nm p (path_bound p) "accents." p.accents) (fun acc =>
  obind (resolve_row_nm p (path_bound p) "ansi.light.normal" p.ansi.light.normal) (fun aln =>
  obind (resolve_row_nm p (path_bound p) "ansi.light.bright" p.ansi.light.bright) (fun alb =>
  obind (resolve_row_nm p (path_bound p) "ansi.dark.normal" p.ansi.dark.normal) (fun adn =>
  obind (resolve_row_nm p (path_bound p) "ansi.dark.bright" p.ansi.dark.bright) (fun adb =>
  some (Except.ok
    { meta := p.meta,
      colors := { light := light, dark := dark },
      accents := acc,
      ansi := { light := { normal := aln, bright := alb },
                dark := { normal := adn, bright := adb } } }))))))))

/-- The reference-chain witness of a successful resolution: the unique
chain of paths from a starting path down to a normalized literal. -/
inductive ResolvesVia (p : Palette) : String → List String → String → Prop where
  | hex : ∀ path raw v, lookup_color_ref p path = some (ColorRef.Hex raw) →
      normalize_hex raw = Except.ok v → ResolvesVia p path [path] v
  | ref : ∀ path next l v, lookup_color_ref p path = some (ColorRef.Path next) →
      ResolvesVia p next l v → ResolvesVia p path (path :: l) v

/-- Every memo entry records a value the path genuinely resolves to. -/
def MemoSound (p : Palette) (memo : Memo) : Prop :=
  ∀ k v, alookup memo k = some v → ∃ l, ResolvesVia p k l v

/-- The denotation of one slot value: a literal normalizes to `v`, a
reference resolves to `v` along some chain. -/
def SlotVal (p : Palette) (cref : ColorRef) (v : String) : Prop :=
  match cref with
  | ColorRef.Hex raw => normalize_hex raw = Except.ok v
  | ColorRef.Path q => ∃ l, ResolvesVia p q l v

/-- The denotation of a whole ansi row. -/
def RowVal (p : Palette) (row : AnsiRow) (out : ResolvedAnsiRow) : Prop :=
  SlotVal p row.black out.black ∧ SlotVal p row.red out.red ∧
    SlotVal p row.green out.green ∧ SlotVal p row.yellow out.yellow ∧
    SlotVal p row.blue out.blue ∧ SlotVal p row.magenta out.magenta ∧
    SlotVal p row.cyan out.cyan ∧ SlotVal p row.white out.white

/-- UTF-8 continuation byte (`0b10xxxxxx`), as in `str::is_char_boundary`. -/
def isContByte (b : Nat) : Bool := 128 ≤ b && b < 192

/-- Rust `str::is_char_boundary` on the byte list of a string. -/
def isCharBoundary (bytes : List Nat) (i : Nat) : Bool :=
  if i = 0 then true
  else
    match bytes.get? i with
    | some b => ! isContByte b
    | none => i = bytes.length

/-- Rust byte slicing `&s[i..j]`: panics (modelled as `Except.error`) when
either end is not a char boundary. -/
def sliceBytes (bytes : List Nat) (i j : Nat) : Except String (List Nat) :=
  if isCharBoundary bytes i && isCharBoundary bytes j then
    Except.ok ((bytes.drop i).take (j - i))
  else Except.error "byte index is not a char boundary"

/-- Hex-digit bytes `0-9`, `A-F`, `a-f`. -/
def isHexDigitByte (b : Nat) : Bool :=
  (48 ≤ b && b ≤ 57) || (65 ≤ b && b ≤ 70) || (97 ≤ b && b ≤ 102)

/-- Numeric value of a hex-digit byte. -/
def hexDigitVal (b : Nat) : Nat :=
  if 48 ≤ b && b ≤ 57 then b - 48
  else if 65 ≤ b && b ≤ 70 then b - 55
  else if 97 ≤ b && b ≤ 102 then b - 87
  else 0

/-- Base-16 digit-string parsing after the optional sign. -/
def parseHexDigits (l : List Nat) : Option Nat :=
  if l = [] then none
  else if l.all isHexDigitByte then
    some (l.foldl (fun acc b => 16 * acc + hexDigitVal b) 0)
  else none

/-- Rust `u8::from_str_radix(s, 16)`: an optional leading `+` or `-` sign,
then one or more hex digits; the value must fit in a u8 and a `-` sign is
only accepted for value zero. -/
def fromStrRadixU8 (l : List Nat) : Option Nat :=
  if l.head? = some 43 then
    match parseHexDigits l.tail with
    | some v => if v ≤ 255 then some v else none
    | none => none
  else if l.head? = some 45 then
    match parseHexDigits l.tail with
    | some v => if v = 0 then some 0 else none
    | none => none
  else
    match parseHexDigits l with
    | some v => if v ≤ 255 then some v else none
    | none => none

/-- src/render.rs and src/show.rs `hex_to_rgb`, on the UTF-8 bytes of the
input string.  `Except.error` models a Rust panic (byte slicing at a
non-char-boundary index); `Except.ok none` is the function's `None`. -/
def hex_to_rgb (bytes : List Nat) : Except String (Option (Nat × Nat × Nat)) :=
  if bytes.length ≠ 7 ∨ bytes.head? ≠ some 35 then Except.ok none
  else
    match sliceBytes bytes 1 3 with
    | Except.error e => Except.error e
    | Except.ok s1 =>
      match fromStrRadixU8 s1 with
      | none => Except.ok none
      | some r =>
        match sliceBytes bytes 3 5 with
        | Except.error e => Except.error e
        | Except.ok s2 =>
          match fromStrRadixU8 s2 with
          | none => Except.ok none
          | some g =>
            match sliceBytes bytes 5 7 with
            | Except.error e => Except.error e
            | Except.ok s3 =>
              match fromStrRadixU8 s3 with
              | none => Except.ok none
              | some b => Except.ok (some (r, g, b))

/-- The UTF-8 byte of an ASCII character (used to write concrete inputs). -/
def asciiBytes (s : String) : List Nat := s.data.map Char.toNat

/-- `f32::round`: round half away from zero, on exact rationals. -/
def rustRound (q : ℚ) : ℤ :=
  if q < 0 then -Int.floor (-q + 1 / 2) else Int.floor (q + 1 / 2)

/-- The fourth byte appended by with_alpha: `(alpha * 255.0).round() as u8`. -/
def alphaByte (alpha : ℚ) : Nat := (rustRound (alpha * 255)).toNat

/-- An uppercase hex digit character. -/
def hexDigitUpper (n : Nat) : Char :=
  if n < 10 then Char.ofNat (48 + n) else Char.ofNat (55 + n)

/-- Rust `format!("{n:02X}")` for a byte value. -/
def hex2 (n : Nat) : String :=
  String.mk [hexDigitUpper (n / 16 % 16), hexDigitUpper (n % 16)]

/-- src/render.rs `with_alpha_hex`: reject alpha outside [0, 1], parse the
hex literal, and append the rounded alpha byte, re-formatting everything
uppercase. -/
def with_alpha_hex (hexBytes : List Nat) (alpha : ℚ) : Except String String :=
  if alpha < 0 ∨ 1 < alpha then Except.error "alpha must be between 0.0 and 1.0"
  else
    match hex_to_rgb hexBytes with
    | Except.error e => Except.error e
    | Except.ok none => Except.error "invalid hex color"
    | Except.ok (some (r, g, b)) =>
      Except.ok ("#" ++ hex2 r ++ hex2 g ++ hex2 b ++ hex2 (alphaByte alpha))

/-- Canonical-form check `^#[0-9A-F]{6}$` for resolved leaf values. -/
def isUpperHexChar (c : Char) : Bool :=
  (48 ≤ c.toNat && c.toNat ≤ 57) || (65 ≤ c.toNat && c.toNat ≤ 70)

/-- A string is a canonical uppercase `#RRGGBB` literal. -/
def canonicalHex (s : String) : Bool :=
  match s.data with
  | '#' :: rest => rest.length == 6 && rest.all isUpperHexChar
  | _ => false

/-- All 32 + open-ended leaf values of a resolved palette are canonical. -/
def rowCanonical (r : ResolvedAnsiRow) : Bool :=
  canonicalHex r.black && canonicalHex r.red && canonicalHex r.green &&
    canonicalHex r.yellow && canonicalHex r.blue && canonicalHex r.magenta &&
    canonicalHex r.cyan && canonicalHex r.white

/-- Every leaf value of the resolved palette matches `^#[0-9A-F]{6}$`. -/
def allCanonical (rp : ResolvedPalette) : Bool :=
  rp.colors.light.all (fun kv => canonicalHex kv.2) &&
    rp.colors.dark.all (fun kv => canonicalHex kv.2) &&
    rp.accents.all (fun kv => canonicalHex kv.2) &&
    rowCanonical rp.ansi.light.normal && rowCanonical rp.ansi.light.bright &&
    rowCanonical rp.ansi.dark.normal && rowCanonical rp.ansi.dark.bright

/-- Extract the success value of a resolution result. -/
def extractOk {α : Type} : Option (Except String α) → Option α
  | some (Except.ok a) => some a
  | _ => none

/-- An ansi row holding a single literal in all eight slots. -/
def rowHex (s : String) : AnsiRow :=
  { black := ColorRef.Hex s, red := ColorRef.Hex s, green := ColorRef.Hex s,
    yellow := ColorRef.Hex s, blue := ColorRef.Hex s, magenta := ColorRef.Hex s,
    cyan := ColorRef.Hex s, white := ColorRef.Hex s }

/-- A full ansi block of literals. -/
def ansiHex (s : String) : Ansi :=
  { light := { normal := rowHex s, bright := rowHex s },
    dark := { normal := rowHex s, bright := rowHex s } }

/-- Common metadata of the concrete test palettes. -/
def demoMeta : Meta := { name := "Test", version := some "0.1.0", slug := none }

/-- Concrete palette with a reference (`accents.warning`), a lowercase
literal and a two-hop chain ending in the literal `"#112233"`. -/
def demoPalette : Palette :=
  { meta := demoMeta,
    colors := { light := [("primary", ColorRef.Hex "#111111"),
                          ("text", ColorRef.Hex "#aabbcc")],
                dark := [("primary", ColorRef.Hex "#112233")] },
    accents := [("c1", ColorRef.Path "accents.c2"),
                ("c2", ColorRef.Path "colors.dark.primary"),
                ("info", ColorRef.Hex "#123456"),
                ("warning", ColorRef.Path "colors.light.primary")],
    ansi := ansiHex "#222222" }

/-- Concrete palette whose first slot references the chain
x -> y -> z -> y, which enters a cycle only after the lead-in step x. -/
def demoCycleLead : Palette :=
  { meta := demoMeta,
    colors := { light := [], dark := [] },
    accents := [("w", ColorRef.Path "accents.x"),
                ("x", ColorRef.Path "accents.y"),
                ("y", ColorRef.Path "accents.z"),
                ("z", ColorRef.Path "accents.y")],
    ansi := ansiHex "#222222" }

/-- Concrete palette with a self-reference and a mutual two-cycle. -/
def demoMutual : Palette :=
  { meta := demoMeta,
    colors := { light := [], dark := [] },
    accents := [("loop", ColorRef.Path "accents.loop"),
                ("ma", ColorRef.Path "accents.mb"),
                ("mb", ColorRef.Path "accents.ma")],
    ansi := ansiHex "#222222" }

/-- Concrete palette with a dangling reference to a nonexistent key. -/
def demoMissing : Palette :=
  { meta := demoMeta,
    colors := { light := [("primary", ColorRef.Hex "#111111")], dark := [] },
    accents := [("warning", ColorRef.Path "colors.light.nonexistent")],
    ansi := ansiHex "#222222" }

/-- Concrete palette with a malformed literal. -/
def demoBadHex : Palette :=
  { meta := demoMeta,
    colors := { light := [("bad", ColorRef.Hex "#GGGGGG")], dark := [] },
    accents := [],
    ansi := ansiHex "#222222" }

/-- Concrete palette with a dotless reference path. -/
def demoBadPath : Palette :=
  { meta := demoMeta,
    colors := { light := [], dark := [] },
    accents := [("warning", ColorRef.Path "colors_light_primary")],
    ansi := ansiHex "#222222" }

/-- The per-slot property the validator enforces: literals match the hex
regex, reference paths contain a dot. -/
def slotValid (cref : ColorRef) : Bool :=
  match cref with
  | ColorRef.Hex s => hexPattern s.data
  | ColorRef.Path q => q.data.contains '.'

/-- Inverse of `splitDot`: re-join components with dots. -/
def joinDot : List (List Char) → List Char
  | [] => []
  | [x] => x
  | x :: xs => x ++ '.' :: joinDot xs

/-- The dotted-path component lists addressing each slot of the palette;
used to bound the recursion depth of resolution. -/
def slot_paths (p : Palette) : List (List String) :=
  p.colors.light.map (fun kv => ["colors", "light", kv.1])
    ++ p.colors.dark.map (fun kv => ["colors", "dark", kv.1])
    ++ p.accents.map (fun kv => ["accents", kv.1])
    ++ [["ansi", "light", "normal", "black"], ["ansi", "light", "normal", "red"],
        ["ansi", "light", "normal", "green"], ["ansi", "light", "normal", "yellow"],
        ["ansi", "light", "normal", "blue"], ["ansi", "light", "normal", "magenta"],
        ["ansi", "light", "normal", "cyan"], ["ansi", "light", "normal", "white"],
        ["ansi", "light", "bright", "black"], ["ansi", "light", "bright", "red"],
        ["ansi", "light", "bright", "green"], ["ansi", "light", "bright", "yellow"],
        ["ansi", "light", "bright", "blue"], ["ansi", "light", "bright", "magenta"],
        ["ansi", "light", "bright", "cyan"], ["ansi", "light", "bright", "white"],
        ["ansi", "dark", "normal", "black"], ["ansi", "dark", "normal", "red"],
        ["ansi", "dark", "normal", "green"], ["ansi", "dark", "normal", "yellow"],
        ["ansi", "dark", "normal", "blue"], ["ansi", "dark", "normal", "magenta"],
        ["ansi", "dark", "normal", "cyan"], ["ansi", "dark", "normal", "white"],
        ["ansi", "dark", "bright", "black"], ["ansi", "dark", "bright", "red"],
        ["ansi", "dark", "bright", "green"], ["ansi", "dark", "bright", "yellow"],
        ["ansi", "dark", "bright", "blue"], ["ansi", "dark", "bright", "magenta"],
        ["ansi", "dark", "bright", "cyan"], ["ansi", "dark", "bright", "white"]]

/-! ## Theorems -/

lemma check_ref_ok_iff (label : String) (cref : ColorRef) :
    check_ref label cref = Except.ok () ↔ slotValid cref = true := by
  cases cref with
  | Hex s =>
    by_cases h : hexPattern s.data <;> simp [check_ref, slotValid, h]
  | Path q =>
    by_cases h : q.data.contains '.' <;> simp [check_ref, slotValid, h]

lemma check_slots_ok_iff (slots : List (String × ColorRef)) :
    check_slots slots = Except.ok () ↔ slots.all (fun lc => slotValid lc.2) = true := by
  induction slots with
  | nil => simp [check_slots]
  | cons lc rest ih =>
    obtain ⟨label, cref⟩ := lc
    cases hc : check_ref label cref with
    | ok u =>
      cases u
      have hv : slotValid cref = true := (check_ref_ok_iff label cref).mp hc
      simp [check_slots, hc, hv, ih]
    | error e =>
      have hv : slotValid cref = false := by
        rcases hb : slotValid cref with _ | _
        · rfl
        · rw [(check_ref_ok_iff label cref).mpr hb] at hc; cases hc
      simp [check_slots, hc, hv]

/-- Claim C8: validate_palette visits every slot of colors.light,
colors.dark, accents and the four ansi rows, succeeding exactly when every
literal matches the 6-hex-digit pattern and every reference path contains a
dot; a failing literal is reported as an invalid-hex error, a dotless path
as a malformed-path error, and a dangling (but dotted) reference passes. -/
theorem c8_validate_palette :
    (∀ p : Palette, validate_palette p = Except.ok () ↔
      (labeled_slots p).all (fun lc => slotValid lc.2) = true) ∧
    (∀ (label : String) (s : String), hexPattern s.data = false →
      check_ref label (ColorRef.Hex s) =
        Except.error (label ++ " has invalid hex color: " ++ s)) ∧
    (∀ (label : String) (q : String), q.data.contains '.' = false →
      check_ref label (ColorRef.Path q) =
        Except.error (label ++ " path must contain at least one '.' segment: " ++ q)) ∧
    validate_palette demoBadHex =
      Except.error "colors.light.bad has invalid hex color: #GGGGGG" ∧
    validate_palette demoBadPath =
      Except.error "accents.warning path must contain at least one '.' segment: colors_light_primary" ∧
    validate_palette demoMissing = Except.ok () := by
  refine ⟨fun p => check_slots_ok_iff (labeled_slots p), ?_, ?_, by decide, by decide, by decide⟩
  · intro label s h
    simp only [check_ref]
    rw [if_neg (by simp [h])]
  · intro label q h
    simp only [check_ref]
    rw [if_neg (by simpa using h)]

/-- Witness for C8 at a concrete palette: the validator accepts the demo
palette, whose slots are all valid. -/
theorem c8_validate_palette_witness :
    validate_palette demoPalette = Except.ok () ∧
    (labeled_slots demoPalette).all (fun lc => slotValid lc.2) = true :=
  ⟨(c8_validate_palette.1 demoPalette).mpr (by decide), by decide⟩

/-- Claim C2 (code behavior at the failing inputs): `hex_to_rgb` is not
total in the claimed sense.  On the 7-byte UTF-8 string "#aéxyz" the Rust
code panics (byte index 3 is inside the two-byte character 'é'), and on
"#+1+2+3" it returns `Some((1, 2, 3))` because `u8::from_str_radix`
accepts sign characters, although neither input is '#' plus six hex
digits.  On ASCII inputs it behaves as the spec says (last three parts,
matching the repository's own tests). -/
theorem c2_hex_to_rgb_failing_inputs :
    hex_to_rgb [35, 97, 195, 169, 120, 121, 122] =
      Except.error "byte index is not a char boundary" ∧
    hex_to_rgb (asciiBytes "#+1+2+3") = Except.ok (some (1, 2, 3)) ∧
    hex_to_rgb (asciiBytes "#A1B2C3") = Except.ok (some (161, 178, 195)) ∧
    hex_to_rgb (asciiBytes "123456") = Except.ok none ∧
    hex_to_rgb (asciiBytes "#ffff") = Except.ok none :=
  ⟨by decide, by decide, by decide, by decide, by decide⟩

/-- Counterexample to claim C1 as stated: resolving the demo palette whose
first slot references the chain x -> y -> z -> y fails with a message that
reports the whole in-progress stack, including the lead-in path accents.x
that precedes the first repeated entry accents.y; the reported chain is
not the chain from the first repeated entry back to itself. -/
theorem c1_cycle_report_counterexample :
    resolve_palette demoCycleLead =
      some (Except.error
        "resolving accents.w -> accents.x: cycle detected: accents.x -> accents.y -> accents.z -> accents.y") ∧
    "resolving accents.w -> accents.x: cycle detected: accents.x -> accents.y -> accents.z -> accents.y" ≠
      "resolving accents.w -> accents.x: cycle detected: accents.y -> accents.z -> accents.y" :=
  ⟨by decide, by decide⟩

/-- Claim C1 as amended: reaching a path already on the in-progress stack
fails with a cycle error reporting the entire in-progress stack followed by
the repeated path, joined " -> " in traversal order (this includes any
lead-in paths traversed before entering the cycle); in particular a
two-entry mutual reference fails naming both paths and a self-reference
fails naming the path twice. -/
theorem c1_cycle_detected :
    (∀ (p : Palette) (fuel : Nat) (path : String) (memo : Memo) (stack : List String),
      alookup memo path = none → path ∈ stack →
      resolve_path p (fuel + 1) path memo stack =
        some (Except.error ("cycle detected: " ++ joinArrow stack ++ " -> " ++ path))) ∧
    (∀ (p : Palette) (fuel : Nat) (a b : String), a ≠ b →
      lookup_color_ref p a = some (ColorRef.Path b) →
      lookup_color_ref p b = some (ColorRef.Path a) →
      resolve_path p (fuel + 3) a [] [] =
        some (Except.error ("cycle detected: " ++ a ++ " -> " ++ b ++ " -> " ++ a))) ∧
    (∀ (p : Palette) (fuel : Nat) (a : String),
      lookup_color_ref p a = some (ColorRef.Path a) →
      resolve_path p (fuel + 2) a [] [] =
        some (Except.error ("cycle detected: " ++ a ++ " -> " ++ a))) := by
  refine ⟨?_, ?_, ?_⟩
  · intro p fuel path memo stack hmemo hstack
    simp [resolve_path, hmemo, hstack]
  · intro p fuel a b hne h1 h2
    simp [resolve_path, alookup, h1, h2, Ne.symm hne, joinArrow, String.append_assoc]
  · intro p fuel a h
    simp [resolve_path, alookup, h, joinArrow, String.append_assoc]

/-- Witness for C1 (amended) at the concrete mutual-reference palette. -/
theorem c1_cycle_detected_witness :
    resolve_path demoMutual 3 "accents.ma" [] [] =
      some (Except.error
        ("cycle detected: " ++ "accents.ma" ++ " -> " ++ "accents.mb" ++ " -> " ++ "accents.ma")) :=
  c1_cycle_detected.2.1 demoMutual 0 "accents.ma" "accents.mb"
    (by decide) (by decide) (by decide)

/-- Claim C5: normalize_hex succeeds exactly on strings matching
`^#[0-9A-Fa-f]{6}$` and returns the input uppercased; `#aabbcc` and
`#AABBCC` both normalize to `#AABBCC`; every other input is rejected with
an invalid-hex error naming the offending value. -/
theorem c5_normalize_hex :
    (∀ s : String, hexPattern s.data = true → normalize_hex s = Except.ok (upperStr s)) ∧
    (∀ s : String, hexPattern s.data = false →
      normalize_hex s = Except.error ("invalid hex color: " ++ s)) ∧
    (∀ s u : String, normalize_hex s = Except.ok u →
      hexPattern s.data = true ∧ u = upperStr s) ∧
    normalize_hex "#aabbcc" = Except.ok "#AABBCC" ∧
    normalize_hex "#AABBCC" = Except.ok "#AABBCC" := by
  refine ⟨?_, ?_, ?_, by decide, by decide⟩
  · intro s h; simp [normalize_hex, h]
  · intro s h; simp [normalize_hex, h]
  · intro s u h
    by_cases hp : hexPattern s.data <;> simp [normalize_hex, hp] at h
    exact ⟨by simp [hp], h.symm⟩

/-- Witness for C5: the lowercase literal normalizes to its uppercasing. -/
theorem c5_normalize_hex_witness :
    hexPattern "#a1b2c3".data = true ∧ normalize_hex "#a1b2c3" = Except.ok (upperStr "#a1b2c3") :=
  ⟨by decide, c5_normalize_hex.1 "#a1b2c3" (by decide)⟩

/-- Claim C7: a reference whose target path is absent from the palette
namespace, or does not parse as one of the three address shapes, fails with
a missing-path error naming the unresolved path and the expected shapes;
end-to-end, a reference to colors.light.nonexistent fails naming exactly
that path. -/
theorem c7_missing_path :
    (∀ (p : Palette) (fuel : Nat) (path : String) (memo : Memo) (stack : List String),
      alookup memo path = none → path ∉ stack → lookup_color_ref p path = none →
      resolve_path p (fuel + 1) path memo stack =
        some (Except.error
          ("missing path '" ++ path ++ "'; expected colors.*, accents.*, or ansi.*.*.*"))) ∧
    resolve_palette demoMissing =
      some (Except.error
        "resolving accents.warning -> colors.light.nonexistent: missing path 'colors.light.nonexistent'; expected colors.*, accents.*, or ansi.*.*.*") ∧
    lookup_color_ref demoMissing "colors.light.nonexistent" = none ∧
    lookup_color_ref demoMissing "not.a.recognized.shape" = none := by
  refine ⟨?_, by decide, by decide, by decide⟩
  intro p fuel path memo stack hmemo hstack hlook
  simp [resolve_path, hmemo, hstack, hlook]

/-- Witness for C7 at the concrete dangling reference. -/
theorem c7_missing_path_witness :
    resolve_path demoMissing 1 "colors.light.nonexistent" [] [] =
      some (Except.error
        ("missing path '" ++ "colors.light.nonexistent" ++ "'; expected colors.*, accents.*, or ansi.*.*.*")) :=
  c7_missing_path.1 demoMissing 0 "colors.light.nonexistent" [] []
    (by decide) (by decide) (by decide)

lemma hexDigitByte_bounds (b : Nat) (h : isHexDigitByte b = true) :
    (48 ≤ b ∧ b ≤ 57) ∨ (65 ≤ b ∧ b ≤ 70) ∨ (97 ≤ b ∧ b ≤ 102) := by
  simp only [isHexDigitByte, Bool.or_eq_true, Bool.and_eq_true,
    decide_eq_true_eq] at h
  tauto

lemma hexDigit_not_cont (b : Nat) (h : isHexDigitByte b = true) :
    isContByte b = false := by
  rcases hexDigitByte_bounds b h with h' | h' | h' <;>
    (simp only [isContByte, Bool.and_eq_false_iff, decide_eq_false_iff_not,
      not_le, not_lt]; omega)

lemma hexDigitVal_lt_16 (b : Nat) (h : isHexDigitByte b = true) :
    hexDigitVal b < 16 := by
  have hb := hexDigitByte_bounds b h
  unfold hexDigitVal
  split_ifs with h1 h2 h3 <;>
    simp only [Bool.and_eq_true, decide_eq_true_eq] at * <;> omega

lemma parseHexDigits_two (a b : Nat) (ha : isHexDigitByte a = true)
    (hb : isHexDigitByte b = true) :
    parseHexDigits [a, b] = some (16 * hexDigitVal a + hexDigitVal b) := by
  simp [parseHexDigits, ha, hb]

lemma fromStrRadixU8_two (a b : Nat) (ha : isHexDigitByte a = true)
    (hb : isHexDigitByte b = true) :
    fromStrRadixU8 [a, b] = some (16 * hexDigitVal a + hexDigitVal b) := by
  have h48 : 48 ≤ a := by
    rcases hexDigitByte_bounds a ha with h | h | h <;> omega
  have hv : 16 * hexDigitVal a + hexDigitVal b ≤ 255 := by
    have := hexDigitVal_lt_16 a ha
    have := hexDigitVal_lt_16 b hb
    omega
  unfold fromStrRadixU8
  rw [if_neg (by simp; omega), if_neg (by simp; omega)]
  simp [parseHexDigits_two a b ha hb, hv]

lemma hex_to_rgb_digits (a b c d e f : Nat)
    (ha : isHexDigitByte a = true) (hb : isHexDigitByte b = true)
    (hc : isHexDigitByte c = true) (hd : isHexDigitByte d = true)
    (he : isHexDigitByte e = true) (hf : isHexDigitByte f = true) :
    hex_to_rgb [35, a, b, c, d, e, f] =
      Except.ok (some (16 * hexDigitVal a + hexDigitVal b,
        16 * hexDigitVal c + hexDigitVal d,
        16 * hexDigitVal e + hexDigitVal f)) := by
  have hs1 : sliceBytes [35, a, b, c, d, e, f] 1 3 = Except.ok [a, b] := by
    simp [sliceBytes, isCharBoundary, hexDigit_not_cont a ha, hexDigit_not_cont c hc]
  have hs2 : sliceBytes [35, a, b, c, d, e, f] 3 5 = Except.ok [c, d] := by
    simp [sliceBytes, isCharBoundary, hexDigit_not_cont c hc, hexDigit_not_cont e he]
  have hs3 : sliceBytes [35, a, b, c, d, e, f] 5 7 = Except.ok [e, f] := by
    simp [sliceBytes, isCharBoundary, hexDigit_not_cont e he]
  unfold hex_to_rgb
  rw [if_neg (by simp)]
  simp [hs1, hs2, hs3, fromStrRadixU8_two a b ha hb,
    fromStrRadixU8_two c d hc hd, fromStrRadixU8_two e f he hf]

/-- Claim C4: for a well-formed 6-hex-digit literal and alpha in [0, 1],
with_alpha_hex produces the 8-digit uppercase hex string whose fourth byte
is alpha scaled to 0-255 and rounded (half away from zero, `f32::round`);
alpha outside [0, 1] is rejected, never clamped; and the three concrete
cases of the spec hold. -/
theorem c4_with_alpha :
    (∀ (a b c d e f : Nat) (alpha : ℚ),
      isHexDigitByte a = true → isHexDigitByte b = true →
      isHexDigitByte c = true → isHexDigitByte d = true →
      isHexDigitByte e = true → isHexDigitByte f = true →
      0 ≤ alpha → alpha ≤ 1 →
      with_alpha_hex [35, a, b, c, d, e, f] alpha =
        Except.ok ("#" ++ hex2 (16 * hexDigitVal a + hexDigitVal b) ++
          hex2 (16 * hexDigitVal c + hexDigitVal d) ++
          hex2 (16 * hexDigitVal e + hexDigitVal f) ++ hex2 (alphaByte alpha))) ∧
    (∀ (bytes : List Nat) (alpha : ℚ), alpha < 0 ∨ 1 < alpha →
      with_alpha_hex bytes alpha = Except.error "alpha must be between 0.0 and 1.0") ∧
    (∀ alpha : ℚ, 0 ≤ alpha → (alphaByte alpha : ℤ) = rustRound (alpha * 255)) ∧
    with_alpha_hex (asciiBytes "#000000") 0 = Except.ok "#00000000" ∧
    with_alpha_hex (asciiBytes "#FFFFFF") 1 = Except.ok "#FFFFFFFF" ∧
    with_alpha_hex (asciiBytes "#AABBCC") (3 / 2) =
      Except.error "alpha must be between 0.0 and 1.0" := by
  have hrange : ∀ alpha : ℚ, 0 ≤ alpha → alpha ≤ 1 → ¬(alpha < 0 ∨ 1 < alpha) := by
    intro alpha h0 h1
    push_neg
    exact ⟨h0, h1⟩
  refine ⟨?_, ?_, ?_, ?_, ?_, ?_⟩
  · intro a b c d e f alpha ha hb hc hd he hf h0 h1
    unfold with_alpha_hex
    rw [if_neg (hrange alpha h0 h1), hex_to_rgb_digits a b c d e f ha hb hc hd he hf]
  · intro bytes alpha h
    unfold with_alpha_hex
    rw [if_pos h]
  · intro alpha h0
    unfold alphaByte
    rw [Int.toNat_of_nonneg]
    unfold rustRound
    rw [if_neg (not_lt.mpr (by positivity))]
    exact Int.floor_nonneg.mpr (by positivity)
  · have hr : rustRound 0 = 0 := by norm_num [rustRound]
    have hz : alphaByte 0 = 0 := by simp [alphaByte, hr]
    have hrgb : hex_to_rgb (asciiBytes "#000000") = Except.ok (some (0, 0, 0)) := by decide
    unfold with_alpha_hex
    rw [if_neg (by norm_num), hrgb, hz]
    decide
  · have hr : rustRound 255 = 255 := by norm_num [rustRound]
    have ho : alphaByte 1 = 255 := by simp [alphaByte, hr]
    have hrgb : hex_to_rgb (asciiBytes "#FFFFFF") = Except.ok (some (255, 255, 255)) := by
      decide
    unfold with_alpha_hex
    rw [if_neg (by norm_num), hrgb, ho]
    decide
  · unfold with_alpha_hex
    rw [if_pos (by norm_num)]

/-- Witness for C4 at the literal "#112233" with alpha 0. -/
theorem c4_with_alpha_witness :
    with_alpha_hex [35, 49, 49, 50, 50, 51, 51] 0 =
      Except.ok ("#" ++ hex2 (16 * hexDigitVal 49 + hexDigitVal 49) ++
        hex2 (16 * hexDigitVal 50 + hexDigitVal 50) ++
        hex2 (16 * hexDigitVal 51 + hexDigitVal 51) ++ hex2 (alphaByte 0)) :=
  c4_with_alpha.1 49 49 50 50 51 51 0 (by decide) (by decide) (by decide)
    (by decide) (by decide) (by decide) (by decide) (by decide)

lemma splitDot_ne_nil (l : List Char) : splitDot l ≠ [] := by
  cases l with
  | nil => simp [splitDot]
  | cons c cs =>
    rcases hs : splitDot cs with _ | ⟨hd, tl⟩ <;>
      simp [splitDot, hs] <;> split <;> simp

lemma joinDot_splitDot (l : List Char) : joinDot (splitDot l) = l := by
  induction l with
  | nil => rfl
  | cons c cs ih =>
    rcases hs : splitDot cs with _ | ⟨hd, tl⟩
    · exact absurd hs (splitDot_ne_nil cs)
    · rw [hs] at ih
      unfold splitDot
      rw [hs]
      show joinDot (if c = '.' then [] :: hd :: tl else (c :: hd) :: tl) = c :: cs
      by_cases hc : c = '.'
      · subst hc
        rw [if_pos rfl]
        show '.' :: joinDot (hd :: tl) = '.' :: cs
        rw [ih]
      · rw [if_neg hc]
        cases tl with
        | nil =>
          show (c :: hd) = c :: cs
          simp [joinDot] at ih
          rw [ih]
        | cons t ts =>
          show (c :: hd) ++ '.' :: joinDot (t :: ts) = c :: cs
          simp [joinDot] at ih
          simpa using ih

lemma pathParts_inj : Function.Injective pathParts := by
  intro q₁ q₂ h
  unfold pathParts at h
  have hmap : splitDot q₁.data = splitDot q₂.data := by
    have hmk : Function.Injective (fun l : List Char => String.mk l) :=
      fun a b hab => by simpa using congrArg String.data hab
    exact List.map_injective_iff.mpr hmk h
  have h2 := congrArg joinDot hmap
  rw [joinDot_splitDot, joinDot_splitDot] at h2
  exact String.ext h2

lemma alookup_mem {α : Type} (l : List (String × α)) (key : String) (v : α)
    (h : alookup l key = some v) : (key, v) ∈ l := by
  induction l with
  | nil => simp [alookup] at h
  | cons kv rest ih =>
    obtain ⟨k, w⟩ := kv
    by_cases hk : key = k
    · subst hk
      simp [alookup] at h
      simp [h]
    · simp [alookup, hk] at h
      exact List.mem_cons_of_mem _ (ih h)

lemma nodup_length_le {α : Type} [DecidableEq α] (l L : List α)
    (hn : l.Nodup) (hs : ∀ x ∈ l, x ∈ L) : l.length ≤ L.length := by
  have h1 : l.toFinset.card = l.length := List.toFinset_card_of_nodup hn
  have h2 : l.toFinset ⊆ L.toFinset := by
    intro x hx
    rw [List.mem_toFinset] at hx ⊢
    exact hs x hx
  have h3 := Finset.card_le_card h2
  have h4 := L.toFinset_card_le
  omega

lemma slot_paths_length (p : Palette) :
    (slot_paths p).length = (labeled_slots p).length := by
  simp [slot_paths, labeled_slots, ansi_row_slots]

lemma lookup_isSome_parts (p : Palette) (q : String)
    (h : (lookup_color_ref p q).isSome = true) : pathParts q ∈ slot_paths p := by
  unfold lookup_color_ref at h
  split at h
  case _ tone key heq =>
    split at h
    · obtain ⟨v, hv⟩ := Option.isSome_iff_exists.mp h
      have hm := alookup_mem _ _ _ hv
      rw [heq]
      apply List.mem_append_left
      apply List.mem_append_left
      apply List.mem_append_left
      exact List.mem_map.mpr ⟨(key, v), hm, rfl⟩
    · obtain ⟨v, hv⟩ := Option.isSome_iff_exists.mp h
      have hm := alookup_mem _ _ _ hv
      rw [heq]
      apply List.mem_append_left
      apply List.mem_append_left
      apply List.mem_append_right
      exact List.mem_map.mpr ⟨(key, v), hm, rfl⟩
    · simp at h
  case _ key heq =>
    obtain ⟨v, hv⟩ := Option.isSome_iff_exists.mp h
    have hm := alookup_mem _ _ _ hv
    rw [heq]
    apply List.mem_append_left
    apply List.mem_append_right
    exact List.mem_map.mpr ⟨(key, v), hm, rfl⟩
  case _ tone level color heq =>
    rw [heq]
    apply List.mem_append_right
    split at h
    · simp at h
    case _ scheme hscheme =>
      split at h
      · simp at h
      case _ row hrow =>
        split at hscheme
        case _ htone =>
          split at hrow
          case _ hlevel =>
            split at h <;> first | decide | simp at h
          case _ hlevel =>
            split at h <;> first | decide | simp at h
          case _ => simp at hrow
        case _ htone =>
          split at hrow
          case _ hlevel =>
            split at h <;> first | decide | simp at h
          case _ hlevel =>
            split at h <;> first | decide | simp at h
          case _ => simp at hrow
        case _ => simp at hscheme
  case _ hne => simp at h

lemma stack_length_le (p : Palette) (stack : List String) (hn : stack.Nodup)
    (ha : ∀ q ∈ stack, (lookup_color_ref p q).isSome = true) :
    stack.length ≤ (labeled_slots p).length := by
  have h1 : (stack.map pathParts).Nodup := hn.map pathParts_inj
  have h2 : ∀ x ∈ stack.map pathParts, x ∈ slot_paths p := by
    intro x hx
    obtain ⟨q, hq, rfl⟩ := List.mem_map.mp hx
    exact lookup_isSome_parts p q (ha q hq)
  have h3 := nodup_length_le _ _ h1 h2
  rw [List.length_map] at h3
  rw [← slot_paths_length]
  exact h3

lemma resolve_path_progress (p : Palette) :
    ∀ (fuel : Nat) (path : String) (memo : Memo) (stack : List String),
      stack.Nodup → (∀ q ∈ stack, (lookup_color_ref p q).isSome = true) →
      (labeled_slots p).length + 1 ≤ fuel + stack.length →
      resolve_path p fuel path memo stack ≠ none := by
  intro fuel
  induction fuel with
  | zero =>
    intro path memo stack hn ha hb
    have := stack_length_le p stack hn ha
    omega
  | succ n ih =>
    intro path memo stack hn ha hb
    cases hm : alookup memo path with
    | some v => simp [resolve_path, hm]
    | none =>
      by_cases hst : path ∈ stack
      · simp [resolve_path, hm, hst]
      · cases hl : lookup_color_ref p path with
        | none => simp [resolve_path, hm, hst, hl]
        | some cref =>
          cases cref with
          | Hex raw =>
            cases hnorm : normalize_hex raw <;>
              simp [resolve_path, hm, hst, hl, hnorm]
          | Path next =>
            have hrec : resolve_path p n next memo (stack ++ [path]) ≠ none := by
              apply ih next memo (stack ++ [path])
              · simp [List.nodup_append, hn, hst]
              · intro q hq
                rcases List.mem_append.mp hq with hq' | hq'
                · exact ha q hq'
                · rw [List.mem_singleton.mp hq', hl]
                  rfl
              · rw [List.length_append]
                simp only [List.length_singleton]
                omega
            cases hr : resolve_path p n next memo (stack ++ [path]) with
            | none => exact absurd hr hrec
            | some r =>
              cases r with
              | error e => simp [resolve_path, hm, hst, hl, hr]
              | ok vm => simp [resolve_path, hm, hst, hl, hr]

lemma obind_ne_none {α β : Type} {x : Option (Except String α)}
    {f : α → Option (Except String β)} (hx : x ≠ none)
    (hf : ∀ a, f a ≠ none) : obind x f ≠ none := by
  cases x with
  | none => exact absurd rfl hx
  | some r =>
    cases r with
    | error e => simp [obind]
    | ok a =>
      show f a ≠ none
      exact hf a

lemma resolve_color_progress (p : Palette) (label : String) (cref : ColorRef)
    (memo : Memo) : resolve_color p (path_bound p) label cref memo ≠ none := by
  cases cref with
  | Hex raw => cases hnorm : normalize_hex raw <;> simp [resolve_color, hnorm]
  | Path path =>
    have hp : resolve_path p (path_bound p) path memo [] ≠ none := by
      apply resolve_path_progress p (path_bound p) path memo []
      · exact List.nodup_nil
      · intro q hq
        simp at hq
      · simp [path_bound]
    cases hr : resolve_path p (path_bound p) path memo [] with
    | none => exact absurd hr hp
    | some r => cases r <;> simp [resolve_color, hr]

lemma resolve_list_progress (p : Palette) (base : String) :
    ∀ (slots : List (String × ColorRef)) (memo : Memo),
      resolve_list p (path_bound p) base slots memo ≠ none := by
  intro slots
  induction slots with
  | nil => intro memo; simp [resolve_list]
  | cons kv rest ih =>
    intro memo
    obtain ⟨k, cref⟩ := kv
    apply obind_ne_none (resolve_color_progress p (base ++ k) cref memo)
    intro vm
    apply obind_ne_none (ih vm.2)
    intro pm
    simp

lemma resolve_row_progress (p : Palette) (base : String) (row : AnsiRow)
    (memo : Memo) : resolve_row p (path_bound p) base row memo ≠ none := by
  unfold resolve_row
  apply obind_ne_none (resolve_color_progress p _ _ _)
  intro b
  apply obind_ne_none (resolve_color_progress p _ _ _)
  intro r
  apply obind_ne_none (resolve_color_progress p _ _ _)
  intro g
  apply obind_ne_none (resolve_color_progress p _ _ _)
  intro y
  apply obind_ne_none (resolve_color_progress p _ _ _)
  intro bl
  apply obind_ne_none (resolve_color_progress p _ _ _)
  intro m
  apply obind_ne_none (resolve_color_progress p _ _ _)
  intro c
  apply obind_ne_none (resolve_color_progress p _ _ _)
  intro w
  simp

/-- Claim C10: resolution terminates.  The recursion depth of resolve_path
is bounded by the number of addressable slots: with fuel exceeding the
slots not yet on the (duplicate-free, addressable) stack, the fuel-out
marker `none` is unreachable, and resolve_palette always returns a
resolved palette or an error. -/
theorem c10_resolution_terminates :
    (∀ (p : Palette) (fuel : Nat) (path : String) (memo : Memo) (stack : List String),
      stack.Nodup → (∀ q ∈ stack, (lookup_color_ref p q).isSome = true) →
      (labeled_slots p).length + 1 ≤ fuel + stack.length →
      resolve_path p fuel path memo stack ≠ none) ∧
    (∀ p : Palette, resolve_palette p ≠ none) := by
  constructor
  · exact resolve_path_progress
  · intro p
    unfold resolve_palette
    apply obind_ne_none (resolve_list_progress p _ _ _)
    intro lightm
    apply obind_ne_none (resolve_list_progress p _ _ _)
    intro darkm
    apply obind_ne_none (resolve_list_progress p _ _ _)
    intro accm
    apply obind_ne_none (resolve_row_progress p _ _ _)
    intro alnm
    apply obind_ne_none (resolve_row_progress p _ _ _)
    intro albm
    apply obind_ne_none (resolve_row_progress p _ _ _)
    intro adnm
    apply obind_ne_none (resolve_row_progress p _ _ _)
    intro adbm
    simp

/-- Witness for C10 at the concrete demo palette and a concrete path. -/
theorem c10_resolution_terminates_witness :
    resolve_path demoPalette (path_bound demoPalette) "accents.c1" [] [] ≠ none :=
  c10_resolution_terminates.1 demoPalette (path_bound demoPalette) "accents.c1" [] []
    (by decide) (by simp) (by decide)

lemma char_toNat_ofNat (n : Nat) (h : n < 55296) : (Char.ofNat n).toNat = n := by
  rw [Char.ofNat, dif_pos (Or.inl h)]
  rfl

lemma toUpper_hex_char (c : Char) (h : isHexDigitChar c = true) :
    isUpperHexChar (Char.toUpper c) = true := by
  simp only [isHexDigitChar, Bool.or_eq_true, Bool.and_eq_true,
    decide_eq_true_eq] at h
  have hup : Char.toUpper c =
      if c.toNat ≥ 97 ∧ c.toNat ≤ 122 then Char.ofNat (c.toNat - 32) else c := rfl
  rcases h with (h' | h') | h'
  · rw [hup, if_neg (by omega)]
    simp only [isUpperHexChar, Bool.or_eq_true, Bool.and_eq_true, decide_eq_true_eq]
    omega
  · rw [hup, if_pos (by omega)]
    simp only [isUpperHexChar, Bool.or_eq_true, Bool.and_eq_true, decide_eq_true_eq]
    rw [char_toNat_ofNat _ (by omega)]
    omega
  · rw [hup, if_neg (by omega)]
    simp only [isUpperHexChar, Bool.or_eq_true, Bool.and_eq_true, decide_eq_true_eq]
    omega

lemma hexPattern_parts (l : List Char) (hp : hexPattern l = true) :
    ∃ rest, l = '#' :: rest ∧ rest.length = 6 ∧
      (∀ c ∈ rest, isHexDigitChar c = true) := by
  unfold hexPattern at hp
  split at hp
  next rest =>
    simp only [Bool.and_eq_true, beq_iff_eq, List.all_eq_true] at hp
    exact ⟨rest, rfl, hp.1, hp.2⟩
  next => cases hp

lemma hexPattern_canonical (l : List Char) (hp : hexPattern l = true) :
    canonicalHex (String.mk (l.map Char.toUpper)) = true := by
  obtain ⟨rest, rfl, hlen, hall⟩ := hexPattern_parts l hp
  have hsharp : Char.toUpper '#' = '#' := by decide
  unfold canonicalHex
  show (match ('#' :: rest).map Char.toUpper with
        | '#' :: rest => rest.length == 6 && rest.all isUpperHexChar
        | _ => false) = true
  simp only [List.map_cons, hsharp]
  simp only [Bool.and_eq_true, beq_iff_eq, List.length_map, hlen,
    List.all_map, List.all_eq_true, Function.comp]
  exact ⟨trivial, fun x hx => toUpper_hex_char x (hall x hx)⟩

lemma normalize_hex_canonical (raw v : String)
    (h : normalize_hex raw = Except.ok v) : canonicalHex v = true := by
  unfold normalize_hex at h
  by_cases hp : hexPattern raw.data
  · rw [if_pos hp] at h
    injection h with h
    subst h
    exact hexPattern_canonical raw.data hp
  · rw [if_neg hp] at h
    cases h

lemma resolvesVia_det {p : Palette} {q : String} {l₁ l₂ : List String}
    {v₁ v₂ : String} (h1 : ResolvesVia p q l₁ v₁) (h2 : ResolvesVia p q l₂ v₂) :
    l₁ = l₂ ∧ v₁ = v₂ := by
  induction h1 generalizing l₂ v₂ with
  | hex path raw v hlook hnorm =>
    cases h2 with
    | hex path2 raw2 v2 hlook2 hnorm2 =>
      rw [hlook] at hlook2
      injection hlook2 with hh
      injection hh with hraw
      subst hraw
      rw [hnorm] at hnorm2
      injection hnorm2 with hv
      exact ⟨rfl, hv⟩
    | ref path2 next l v2 hlook2 hvia =>
      rw [hlook] at hlook2
      injection hlook2 with hh
      exact ColorRef.noConfusion hh
  | ref path next l v hlook hvia ih =>
    cases h2 with
    | hex path2 raw2 v2 hlook2 hnorm2 =>
      rw [hlook] at hlook2
      injection hlook2 with hh
      exact ColorRef.noConfusion hh
    | ref path2 next2 l2 v2 hlook2 hvia2 =>
      rw [hlook] at hlook2
      injection hlook2 with hh
      injection hh with hnext
      subst hnext
      obtain ⟨hl, hv⟩ := ih hvia2
      exact ⟨by rw [hl], hv⟩

lemma resolvesVia_mem {p : Palette} {q : String} {l : List String} {v : String}
    (h : ResolvesVia p q l v) :
    ∀ x ∈ l, ∃ lx, ResolvesVia p x lx v ∧ lx.length ≤ l.length := by
  induction h with
  | hex path raw v hlook hnorm =>
    intro x hx
    rw [List.mem_singleton] at hx
    subst hx
    exact ⟨[x], ResolvesVia.hex x raw v hlook hnorm, le_refl _⟩
  | ref path next l v hlook hvia ih =>
    intro x hx
    rcases List.mem_cons.mp hx with hx' | hx'
    · subst hx'
      exact ⟨x :: l, ResolvesVia.ref x next l v hlook hvia, le_refl _⟩
    · obtain ⟨lx, hd, hlen⟩ := ih x hx'
      exact ⟨lx, hd, hlen.trans (by simp)⟩

lemma resolvesVia_nodup {p : Palette} {q : String} {l : List String} {v : String}
    (h : ResolvesVia p q l v) : l.Nodup := by
  induction h with
  | hex path raw v _ _ => simp
  | ref path next l v hlook hvia ih =>
    rw [List.nodup_cons]
    refine ⟨?_, ih⟩
    intro hmem
    obtain ⟨lx, hd, hlen⟩ := resolvesVia_mem hvia path hmem
    have hfull : ResolvesVia p path (path :: l) v :=
      ResolvesVia.ref path next l v hlook hvia
    obtain ⟨hl, _⟩ := resolvesVia_det hd hfull
    rw [hl] at hlen
    simp at hlen

lemma resolvesVia_addressable {p : Palette} {q : String} {l : List String}
    {v : String} (h : ResolvesVia p q l v) :
    ∀ x ∈ l, (lookup_color_ref p x).isSome = true := by
  induction h with
  | hex path raw v hlook _ =>
    intro x hx
    rw [List.mem_singleton] at hx
    subst hx
    rw [hlook]
    rfl
  | ref path next l v hlook hvia ih =>
    intro x hx
    rcases List.mem_cons.mp hx with hx' | hx'
    · subst hx'
      rw [hlook]
      rfl
    · exact ih x hx'

lemma resolvesVia_canonical {p : Palette} {q : String} {l : List String}
    {v : String} (h : ResolvesVia p q l v) : canonicalHex v = true := by
  induction h with
  | hex path raw v hlook hnorm => exact normalize_hex_canonical raw v hnorm
  | ref path next l v hlook hvia ih => exact ih

lemma resolvesVia_length_le {p : Palette} {q : String} {l : List String}
    {v : String} (h : ResolvesVia p q l v) :
    l.length ≤ (labeled_slots p).length :=
  stack_length_le p l (resolvesVia_nodup h) (resolvesVia_addressable h)

lemma run_of_resolvesVia {p : Palette} {q : String} {l : List String}
    {v : String} (h : ResolvesVia p q l v) :
    ∀ (fuel : Nat) (stack : List String), l.length ≤ fuel →
      (∀ x ∈ stack, x ∉ l) →
      resolve_path_nm p fuel q stack = some (Except.ok v) := by
  induction h with
  | hex path raw v hlook hnorm =>
    intro fuel stack hfuel hdisj
    cases fuel with
    | zero => simp at hfuel
    | succ n =>
      have hst : path ∉ stack := fun hmem => hdisj path hmem (by simp)
      simp [resolve_path_nm, hst, hlook, hnorm]
  | ref path next l v hlook hvia ih =>
    intro fuel stack hfuel hdisj
    cases fuel with
    | zero => simp at hfuel
    | succ n =>
      have hst : path ∉ stack := fun hmem => hdisj path hmem (by simp)
      have hnd := resolvesVia_nodup (ResolvesVia.ref path next l v hlook hvia)
      rw [List.nodup_cons] at hnd
      have hdisj' : ∀ x ∈ stack ++ [path], x ∉ l := by
        intro x hx
        rcases List.mem_append.mp hx with hx' | hx'
        · intro hl
          exact hdisj x hx' (List.mem_cons_of_mem _ hl)
        · rw [List.mem_singleton.mp hx']
          exact hnd.1
      have hfuel' : l.length ≤ n := by
        simp only [List.length_cons] at hfuel
        omega
      have hrec := ih n (stack ++ [path]) hfuel' hdisj'
      simp [resolve_path_nm, hst, hlook, hrec]

lemma memoSound_nil (p : Palette) : MemoSound p [] := by
  intro k v h
  simp [alookup] at h

lemma memoSound_insert {p : Palette} {memo : Memo} {path v : String}
    {l : List String} (hs : MemoSound p memo) (hd : ResolvesVia p path l v) :
    MemoSound p ((path, v) :: memo) := by
  intro k w h
  by_cases hk : k = path
  · subst hk
    simp [alookup] at h
    subst h
    exact ⟨l, hd⟩
  · simp [alookup, hk] at h
    exact hs k w h

lemma resolve_path_sound (p : Palette) :
    ∀ (fuel : Nat) (path : String) (memo : Memo) (stack : List String)
      (v : String) (memo2 : Memo), MemoSound p memo →
      resolve_path p fuel path memo stack = some (Except.ok (v, memo2)) →
      (∃ l, ResolvesVia p path l v) ∧ MemoSound p memo2 := by
  intro fuel
  induction fuel with
  | zero =>
    intro path memo stack v memo2 hs h
    simp [resolve_path] at h
  | succ n ih =>
    intro path memo stack v memo2 hs h
    simp only [resolve_path] at h
    split at h
    next w heq =>
      simp only [Option.some.injEq, Except.ok.injEq, Prod.mk.injEq] at h
      obtain ⟨hv, hmemo⟩ := h
      subst hv
      subst hmemo
      exact ⟨hs path w heq, hs⟩
    next heq =>
      split at h
      · simp at h
      next hst =>
        split at h
        next hl => simp at h
        next raw hl =>
          split at h
          next e hnorm => simp at h
          next w hnorm =>
            simp only [Option.some.injEq, Except.ok.injEq, Prod.mk.injEq] at h
            obtain ⟨hv, hmemo⟩ := h
            subst hv
            subst hmemo
            have hd := ResolvesVia.hex path raw w hl hnorm
            exact ⟨⟨[path], hd⟩, memoSound_insert hs hd⟩
        next nxt hl =>
          split at h
          next hr => simp at h
          next e hr => simp at h
          next w memo3 hr =>
            simp only [Option.some.injEq, Except.ok.injEq, Prod.mk.injEq] at h
            obtain ⟨hv, hmemo⟩ := h
            subst hv
            subst hmemo
            obtain ⟨⟨l, hdnext⟩, hs3⟩ := ih nxt memo (stack ++ [path]) w memo3 hs hr
            have hd := ResolvesVia.ref path nxt l w hl hdnext
            exact ⟨⟨path :: l, hd⟩, memoSound_insert hs3 hd⟩

lemma obind_eq_ok {α β : Type} {x : Option (Except String α)}
    {f : α → Option (Except String β)} {b : β}
    (h : obind x f = some (Except.ok b)) :
    ∃ a, x = some (Except.ok a) ∧ f a = some (Except.ok b) := by
  cases x with
  | none => simp [obind] at h
  | some r =>
    cases r with
    | error e => simp [obind] at h
    | ok a => exact ⟨a, rfl, h⟩

lemma resolve_color_sound {p : Palette} {fuel : Nat} {label : String}
    {cref : ColorRef} {memo : Memo} {v : String} {memo2 : Memo}
    (hs : MemoSound p memo)
    (h : resolve_color p fuel label cref memo = some (Except.ok (v, memo2))) :
    SlotVal p cref v ∧ MemoSound p memo2 := by
  cases cref with
  | Hex raw =>
    cases hnorm : normalize_hex raw with
    | error e => simp [resolve_color, hnorm] at h
    | ok w =>
      simp [resolve_color, hnorm] at h
      obtain ⟨hv, hmemo⟩ := h
      subst hv
      subst hmemo
      exact ⟨hnorm, hs⟩
  | Path q =>
    cases hr : resolve_path p fuel q memo [] with
    | none => simp [resolve_color, hr] at h
    | some r =>
      cases r with
      | error e => simp [resolve_color, hr] at h
      | ok vm =>
        obtain ⟨w, memo3⟩ := vm
        simp [resolve_color, hr] at h
        obtain ⟨hv, hmemo⟩ := h
        subst hv
        subst hmemo
        obtain ⟨⟨l, hd⟩, hs3⟩ := resolve_path_sound p fuel q memo [] w memo3 hs hr
        exact ⟨⟨l, hd⟩, hs3⟩

lemma slotVal_canonical {p : Palette} {cref : ColorRef} {v : String}
    (h : SlotVal p cref v) : canonicalHex v = true := by
  cases cref with
  | Hex raw => exact normalize_hex_canonical raw v h
  | Path q =>
    obtain ⟨l, hd⟩ := h
    exact resolvesVia_canonical hd

lemma resolve_color_nm_of_slotVal {p : Palette} {label : String}
    {cref : ColorRef} {v : String} (h : SlotVal p cref v) :
    resolve_color_nm p (path_bound p) label cref = some (Except.ok v) := by
  cases cref with
  | Hex raw =>
    have h' : normalize_hex raw = Except.ok v := h
    simp [resolve_color_nm, h']
  | Path q =>
    obtain ⟨l, hd⟩ := h
    have hlen : l.length ≤ path_bound p := by
      have := resolvesVia_length_le hd
      simp only [path_bound]
      omega
    have hrun := run_of_resolvesVia hd (path_bound p) [] hlen (by simp)
    simp [resolve_color_nm, hrun]

lemma resolve_list_sound (p : Palette) (fuel : Nat) (base : String) :
    ∀ (slots : List (String × ColorRef)) (memo : Memo)
      (pairs : List (String × String)) (memo2 : Memo), MemoSound p memo →
      resolve_list p fuel base slots memo = some (Except.ok (pairs, memo2)) →
      MemoSound p memo2 ∧
        List.Forall₂ (fun kv out => out.1 = kv.1 ∧ SlotVal p kv.2 out.2) slots pairs := by
  intro slots
  induction slots with
  | nil =>
    intro memo pairs memo2 hs h
    simp [resolve_list] at h
    obtain ⟨hp, hm⟩ := h
    subst hp
    subst hm
    exact ⟨hs, List.Forall₂.nil⟩
  | cons kv rest ih =>
    intro memo pairs memo2 hs h
    obtain ⟨k, cref⟩ := kv
    simp only [resolve_list] at h
    obtain ⟨vm, hc, h2⟩ := obind_eq_ok h
    obtain ⟨pm, hl, h3⟩ := obind_eq_ok h2
    simp only [Option.some.injEq, Except.ok.injEq, Prod.mk.injEq] at h3
    obtain ⟨hp, hm⟩ := h3
    subst hp
    subst hm
    obtain ⟨hsv, hs3⟩ := resolve_color_sound hs hc
    obtain ⟨hs4, hf⟩ := ih vm.2 pm.1 pm.2 hs3 hl
    exact ⟨hs4, List.Forall₂.cons ⟨rfl, hsv⟩ hf⟩

lemma resolve_list_nm_of (p : Palette) (base : String) :
    ∀ (slots : List (String × ColorRef)) (pairs : List (String × String)),
      List.Forall₂ (fun kv out => out.1 = kv.1 ∧ SlotVal p kv.2 out.2) slots pairs →
      resolve_list_nm p (path_bound p) base slots = some (Except.ok pairs) := by
  intro slots pairs h
  induction h with
  | nil => simp [resolve_list_nm]
  | cons h1 hrest ih =>
    rename_i a b l₁ l₂
    obtain ⟨k, cref⟩ := a
    obtain ⟨b1, b2⟩ := b
    obtain ⟨hb1, hb2⟩ := h1
    simp only at hb1
    subst hb1
    have hc := @resolve_color_nm_of_slotVal p (base ++ b1) cref b2 hb2
    simp [resolve_list_nm, obind, hc, ih]

lemma resolve_row_sound {p : Palette} {fuel : Nat} {base : String}
    {row : AnsiRow} {memo : Memo} {rrow : ResolvedAnsiRow} {memo2 : Memo}
    (hs : MemoSound p memo)
    (h : resolve_row p fuel base row memo = some (Except.ok (rrow, memo2))) :
    MemoSound p memo2 ∧ RowVal p row rrow := by
  unfold resolve_row at h
  obtain ⟨b, hb, h⟩ := obind_eq_ok h
  obtain ⟨r, hr, h⟩ := obind_eq_ok h
  obtain ⟨g, hg, h⟩ := obind_eq_ok h
  obtain ⟨y, hy, h⟩ := obind_eq_ok h
  obtain ⟨bl, hbl, h⟩ := obind_eq_ok h
  obtain ⟨m, hm, h⟩ := obind_eq_ok h
  obtain ⟨c, hc, h⟩ := obind_eq_ok h
  obtain ⟨w, hw, h⟩ := obind_eq_ok h
  simp only [Option.some.injEq, Except.ok.injEq, Prod.mk.injEq] at h
  obtain ⟨hrow, hmemo⟩ := h
  subst hrow
  subst hmemo
  obtain ⟨s1, hm1⟩ := resolve_color_sound hs hb
  obtain ⟨s2, hm2⟩ := resolve_color_sound hm1 hr
  obtain ⟨s3, hm3⟩ := resolve_color_sound hm2 hg
  obtain ⟨s4, hm4⟩ := resolve_color_sound hm3 hy
  obtain ⟨s5, hm5⟩ := resolve_color_sound hm4 hbl
  obtain ⟨s6, hm6⟩ := resolve_color_sound hm5 hm
  obtain ⟨s7, hm7⟩ := resolve_color_sound hm6 hc
  obtain ⟨s8, hm8⟩ := resolve_color_sound hm7 hw
  exact ⟨hm8, s1, s2, s3, s4, s5, s6, s7, s8⟩

lemma resolve_row_nm_of {p : Palette} {base : String} {row : AnsiRow}
    {out : ResolvedAnsiRow} (h : RowVal p row out) :
    resolve_row_nm p (path_bound p) base row = some (Except.ok out) := by
  obtain ⟨h1, h2, h3, h4, h5, h6, h7, h8⟩ := h
  unfold resolve_row_nm
  simp [obind, resolve_color_nm_of_slotVal h1, resolve_color_nm_of_slotVal h2,
    resolve_color_nm_of_slotVal h3, resolve_color_nm_of_slotVal h4,
    resolve_color_nm_of_slotVal h5, resolve_color_nm_of_slotVal h6,
    resolve_color_nm_of_slotVal h7, resolve_color_nm_of_slotVal h8]

lemma forall2_all_canonical {p : Palette} {slots : List (String × ColorRef)}
    {pairs : List (String × String)}
    (hf : List.Forall₂ (fun kv out => out.1 = kv.1 ∧ SlotVal p kv.2 out.2) slots pairs) :
    pairs.all (fun kv => canonicalHex kv.2) = true := by
  induction hf with
  | nil => rfl
  | cons h1 _ ih => simp [List.all_cons, ih, slotVal_canonical h1.2]

lemma rowVal_canonical {p : Palette} {row : AnsiRow} {out : ResolvedAnsiRow}
    (h : RowVal p row out) : rowCanonical out = true := by
  obtain ⟨h1, h2, h3, h4, h5, h6, h7, h8⟩ := h
  simp [rowCanonical, slotVal_canonical h1, slotVal_canonical h2,
    slotVal_canonical h3, slotVal_canonical h4, slotVal_canonical h5,
    slotVal_canonical h6, slotVal_canonical h7, slotVal_canonical h8]

/-- Claim C3: every leaf value of a successfully resolved palette — every
entry of colors.light, colors.dark, accents, and all 32 ansi slots — is a
canonical uppercase `#RRGGBB` string (`^#[0-9A-F]{6}$`). -/
theorem c3_resolved_leaves_canonical :
    ∀ (p : Palette) (rp : ResolvedPalette),
      resolve_palette p = some (Except.ok rp) → allCanonical rp = true := by
  intro p rp h
  unfold resolve_palette at h
  obtain ⟨lm, hl, h⟩ := obind_eq_ok h
  obtain ⟨dm, hd, h⟩ := obind_eq_ok h
  obtain ⟨am, ha, h⟩ := obind_eq_ok h
  obtain ⟨r1, h1, h⟩ := obind_eq_ok h
  obtain ⟨r2, h2, h⟩ := obind_eq_ok h
  obtain ⟨r3, h3, h⟩ := obind_eq_ok h
  obtain ⟨r4, h4, h⟩ := obind_eq_ok h
  simp only [Option.some.injEq, Except.ok.injEq] at h
  subst h
  obtain ⟨hs1, hf1⟩ := resolve_list_sound p _ _ _ _ _ _ (memoSound_nil p) hl
  obtain ⟨hs2, hf2⟩ := resolve_list_sound p _ _ _ _ _ _ hs1 hd
  obtain ⟨hs3, hf3⟩ := resolve_list_sound p _ _ _ _ _ _ hs2 ha
  obtain ⟨hs4, hr1⟩ := resolve_row_sound hs3 h1
  obtain ⟨hs5, hr2⟩ := resolve_row_sound hs4 h2
  obtain ⟨hs6, hr3⟩ := resolve_row_sound hs5 h3
  obtain ⟨hs7, hr4⟩ := resolve_row_sound hs6 h4
  simp [allCanonical, forall2_all_canonical hf1, forall2_all_canonical hf2,
    forall2_all_canonical hf3, rowVal_canonical hr1, rowVal_canonical hr2,
    rowVal_canonical hr3, rowVal_canonical hr4]

/-- Witness for C3: the demo palette resolves and all its leaves are
canonical uppercase hex strings. -/
theorem c3_resolved_leaves_canonical_witness :
    ∃ rp, resolve_palette demoPalette = some (Except.ok rp) ∧
      allCanonical rp = true := by
  cases hr : resolve_palette demoPalette with
  | none => exact absurd hr (by decide)
  | some r =>
    cases r with
    | error e =>
      have hok : (extractOk (resolve_palette demoPalette)).isSome = true := by decide
      rw [hr] at hok
      simp [extractOk] at hok
    | ok rp => exact ⟨rp, rfl, c3_resolved_leaves_canonical demoPalette rp hr⟩

/-- Claim C6: a reference chain a -> b -> c ending in the literal
`"#112233"` resolves a to `"#112233"` (and memoizes all three paths);
end-to-end, the demo palette resolves accents.warning (a reference to
colors.light.primary = `"#111111"`) to `"#111111"`, and the two-hop chain
accents.c1 -> accents.c2 -> colors.dark.primary to `"#112233"`. -/
theorem c6_chain_resolution :
    (∀ (p : Palette) (fuel : Nat) (a b c : String),
      lookup_color_ref p a = some (ColorRef.Path b) →
      lookup_color_ref p b = some (ColorRef.Path c) →
      lookup_color_ref p c = some (ColorRef.Hex "#112233") →
      resolve_path p (fuel + 3) a [] [] =
        some (Except.ok ("#112233",
          [(a, "#112233"), (b, "#112233"), (c, "#112233")]))) ∧
    (resolve_palette demoPalette).map (Except.map (fun rp => alookup rp.accents "warning")) =
      some (Except.ok (some "#111111")) ∧
    (resolve_palette demoPalette).map (Except.map (fun rp => alookup rp.accents "c1")) =
      some (Except.ok (some "#112233")) := by
  refine ⟨?_, by decide, by decide⟩
  intro p fuel a b c h1 h2 h3
  have hab : a ≠ b := by
    intro he
    subst he
    rw [h1] at h2
    injection h2 with h2'
    injection h2' with hac
    subst hac
    rw [h1] at h3
    injection h3 with h3'
    exact ColorRef.noConfusion h3'
  have hca : c ≠ a := by
    intro he
    subst he
    rw [h1] at h3
    injection h3 with hh
    exact ColorRef.noConfusion hh
  have hcb : c ≠ b := by
    intro he
    subst he
    rw [h2] at h3
    injection h3 with hh
    exact ColorRef.noConfusion hh
  have hnorm : normalize_hex "#112233" = Except.ok "#112233" := by decide
  simp [resolve_path, alookup, h1, h2, h3, hnorm, hab, Ne.symm hab, hca, hcb]

/-- Witness for C6: the chain accents.c1 -> accents.c2 ->
colors.dark.primary of the demo palette. -/
theorem c6_chain_resolution_witness :
    resolve_path demoPalette 3 "accents.c1" [] [] =
      some (Except.ok ("#112233",
        [("accents.c1", "#112233"), ("accents.c2", "#112233"),
         ("colors.dark.primary", "#112233")])) :=
  c6_chain_resolution.1 demoPalette 0 "accents.c1" "accents.c2"
    "colors.dark.primary" (by decide) (by decide) (by decide)

/-- Claim C9: resolution is deterministic and memoization-independent.  A
successful memoized resolution equals the naive memo-free resolution of
every slot; every path resolves to a unique literal independent of how it
is reached (so enumeration order cannot change any value); and resolving
the same palette twice yields identical output. -/
theorem c9_memoization_never_changes_result :
    (∀ (p : Palette) (rp : ResolvedPalette),
      resolve_palette p = some (Except.ok rp) →
      resolve_palette_nm p = some (Except.ok rp)) ∧
    (∀ (p : Palette) (q : String) (l₁ l₂ : List String) (v₁ v₂ : String),
      ResolvesVia p q l₁ v₁ → ResolvesVia p q l₂ v₂ → v₁ = v₂) ∧
    (∀ p : Palette, resolve_palette p = resolve_palette p) := by
  refine ⟨?_, ?_, fun p => rfl⟩
  · intro p rp h
    unfold resolve_palette at h
    obtain ⟨lm, hl, h⟩ := obind_eq_ok h
    obtain ⟨dm, hd, h⟩ := obind_eq_ok h
    obtain ⟨am, ha, h⟩ := obind_eq_ok h
    obtain ⟨r1, h1, h⟩ := obind_eq_ok h
    obtain ⟨r2, h2, h⟩ := obind_eq_ok h
    obtain ⟨r3, h3, h⟩ := obind_eq_ok h
    obtain ⟨r4, h4, h⟩ := obind_eq_ok h
    simp only [Option.some.injEq, Except.ok.injEq] at h
    subst h
    obtain ⟨hs1, hf1⟩ := resolve_list_sound p _ _ _ _ _ _ (memoSound_nil p) hl
    obtain ⟨hs2, hf2⟩ := resolve_list_sound p _ _ _ _ _ _ hs1 hd
    obtain ⟨hs3, hf3⟩ := resolve_list_sound p _ _ _ _ _ _ hs2 ha
    obtain ⟨hs4, hr1⟩ := resolve_row_sound hs3 h1
    obtain ⟨hs5, hr2⟩ := resolve_row_sound hs4 h2
    obtain ⟨hs6, hr3⟩ := resolve_row_sound hs5 h3
    obtain ⟨hs7, hr4⟩ := resolve_row_sound hs6 h4
    unfold resolve_palette_nm
    simp [obind, resolve_list_nm_of p "colors.light." _ _ hf1,
      resolve_list_nm_of p "colors.dark." _ _ hf2,
      resolve_list_nm_of p "accents." _ _ hf3,
      resolve_row_nm_of hr1, resolve_row_nm_of hr2,
      resolve_row_nm_of hr3, resolve_row_nm_of hr4]
  · intro p q l₁ l₂ v₁ v₂ hd1 hd2
    exact (resolvesVia_det hd1 hd2).2

/-- Witness for C9: the demo palette's memoized and naive resolutions
agree. -/
theorem c9_memoization_never_changes_result_witness :
    ∃ rp, resolve_palette demoPalette = some (Except.ok rp) ∧
      resolve_palette_nm demoPalette = some (Except.ok rp) := by
  cases hr : resolve_palette demoPalette with
  | none => exact absurd hr (by decide)
  | some r =>
    cases r with
    | error e =>
      have hok : (extractOk (resolve_palette demoPalette)).isSome = true := by decide
      rw [hr] at hok
      simp [extractOk] at hok
    | ok rp =>
      exact ⟨rp, rfl, c9_memoization_never_changes_result.1 demoPalette rp hr⟩

end Veneer
